import Mathlib

/-!
Verification of the RKTBATCH batch runner core (main.cpp, file.hpp, pipe.hpp).

The development embeds the pieces of the program that the checked properties
are about: the `rkt::file` stream wrapper, the `rkt::pipe` descriptor pair and
its EINTR retry loops, environment assembly (`make_env`), the SIGCHLD /
shutdown-ECB bridge, `kill_process`, the exit-status decoding at the end of
`run`, and the select-driven I/O relay loop of `run`.

Modelling conventions:
  - bytes are `Nat`;
  - the kernel-side outcomes of one run (which descriptors `selectex`
    reported ready, what the child pipes deliver) are an explicit finite
    schedule of events, so the loop is a fold over that schedule;
  - a thrown C++ exception is `Except.error`;
  - the blocking `::write` on the child stdin pipe is modelled as
    transferring all requested bytes (blocking-pipe semantics);
  - after `rkt::file::close`, the unread suffix of the stream stays in the
    model as ghost data; it is unreachable because reads on a closed stream
    raise.
-/

/-- Size in bytes of the relay buffer `char buf[4096]` in `run` (main.cpp). -/
def BUFSIZE : Nat := 4096

/-- z/OS signal number of SIGTERM, as used by `kill_process` and by the
`128 + SIGTERM` normalization in `run` (main.cpp). -/
def SIGTERM : Nat := 15

/-- z/OS signal number of SIGCHLD, the signal `setup_signal_handlers` binds to
`handle_sigchld` (main.cpp). -/
def SIGCHLD : Nat := 20

/-- z/OS errno value for an interrupted system call, tested by the retry loops
of `rkt::pipe::read` and `rkt::pipe::write` (pipe.hpp). -/
def EINTR : Nat := 120

/-! ## rkt::file (file.hpp)

A `rkt::file` owns a possibly-null `FILE*`; the model keeps whether the handle
is non-null and the unread bytes of the underlying stream. -/

/-- State of an `rkt::file`: `isOpen` is `m_handle != nullptr`, `content` the
bytes `fread` has not yet delivered. -/
structure FileState where
  isOpen : Bool
  content : List Nat
  deriving DecidableEq

/-- Model of `rkt::file::open(name, mode, throwOnError)` (file.hpp):
`fopen` succeeds exactly when the named resource is present; on failure the
object is left unopened, and with `throwOnError` the call throws
"Error opening file". `content` is what the resource holds when present. -/
def file_open (present : Bool) (content : List Nat) (throwOnError : Bool) :
    Except String FileState :=
  if present then Except.ok ⟨true, content⟩
  else if throwOnError then Except.error "Error opening file"
  else Except.ok ⟨false, []⟩

/-- Model of `rkt::file::read(buffer, size)` (file.hpp): throws
"File not open" when `m_handle` is null; otherwise `fread(buffer, 1, size)`
returns the next `min size remaining` bytes, hence `0` bytes at end of
stream. Returns the bytes read and the successor state. -/
def file_read (f : FileState) (size : Nat) :
    Except String (List Nat × FileState) :=
  if f.isOpen = false then Except.error "File not open"
  else Except.ok (f.content.take size, ⟨true, f.content.drop size⟩)

/-- Model of `rkt::file::close` (file.hpp): idempotent, leaves the object
unopened. The unread suffix stays as ghost data. -/
def file_close (f : FileState) : FileState :=
  { f with isOpen := false }

/-- main.cpp line 191: `rkt::file dataset_stdin("//DD:STDIN", "r")` — the
two-argument constructor leaves `throwOnError` at its default `true`. -/
def open_dataset_stdin (present : Bool) (content : List Nat) :
    Except String FileState :=
  file_open present content true

/-! ## rkt::pipe (pipe.hpp) -/

/-- Model of `rkt::pipe::close(side)` acting on one descriptor slot
(pipe.hpp): a `::close` system call is issued only when the stored fd is not
`-1`, and the slot then holds `-1`. The result is the new slot value paired
with how many `::close` system calls were issued. -/
def pipe_close_slot (fd : Int) : Int × Nat :=
  if fd ≠ -1 then (-1, 1) else (-1, 0)

/-- Outcome of one attempt of the underlying `::read` or `::write` system
call: a byte count, or failure with an errno value. -/
inductive SysRes where
  | ok (n : Nat)
  | err (errno : Nat)
  deriving DecidableEq

/-- Error raised by `rkt::pipe::read` / `rkt::pipe::write` (pipe.hpp): the
"not open" throw before the loop, or a propagated I/O errno. -/
inductive PipeErr where
  | notOpen
  | io (errno : Nat)
  deriving DecidableEq

/-- The do/while retry loop shared by `rkt::pipe::read` and
`rkt::pipe::write` (pipe.hpp): repeat the system call while it yields `-1`
with errno EINTR; a `-1` with any other errno is thrown; otherwise the byte
count is returned. `attempts` is the finite schedule of outcomes the kernel
produces; `none` means every scheduled attempt was EINTR and the loop is
still retrying. -/
def retry_eintr : List SysRes → Option (Except Nat Nat)
  | [] => none
  | SysRes.ok n :: _ => some (Except.ok n)
  | SysRes.err e :: rest =>
      if e = EINTR then retry_eintr rest else some (Except.error e)

/-- Model of `rkt::pipe::read` (pipe.hpp): throws when the read end is
closed, otherwise runs the retry loop. -/
def pipe_read (readOpen : Bool) (attempts : List SysRes) :
    Option (Except PipeErr Nat) :=
  if readOpen = false then some (Except.error PipeErr.notOpen)
  else (retry_eintr attempts).map (Except.mapError PipeErr.io)

/-- Model of `rkt::pipe::write` (pipe.hpp): throws when the write end is
closed, otherwise runs the retry loop. -/
def pipe_write (writeOpen : Bool) (attempts : List SysRes) :
    Option (Except PipeErr Nat) :=
  if writeOpen = false then some (Except.error PipeErr.notOpen)
  else (retry_eintr attempts).map (Except.mapError PipeErr.io)

/-! ## Environment assembly (make_env, main.cpp; strings.hpp) -/

/-- Model of `rkt::strings::ltrim` with its default delimiters " \t\n"
(strings.hpp): erase the longest leading run of delimiter characters. -/
def ltrim (s : List Char) : List Char :=
  s.dropWhile (fun c => c == ' ' || c == '\t' || c == '\n')

/-- Model of `rkt::strings::starts_with(s, p)` (strings.hpp):
`s.rfind(p, 0) == 0`, i.e. `p` is a leading segment of `s`. -/
def starts_with (s p : List Char) : Bool :=
  p.isPrefixOf s

/-- The key tested by `make_env` on each retained STDENV line (main.cpp). -/
def SHAREAS_KEY : List Char := "_BPX_SHAREAS=".toList

/-- The entry `make_env` forces when no STDENV line overrides the key
(main.cpp). -/
def SHAREAS_MUST : List Char := "_BPX_SHAREAS=MUST".toList

/-- The filter of the STDENV loop body (main.cpp): a line already passed
through `ltrim` is kept when it is non-empty and its first character is not
the comment marker. -/
def keep_line (l : List Char) : Bool :=
  match l with
  | [] => false
  | c :: _ => c != '#'

/-- One pass of the STDENV while-loop body of `make_env` (main.cpp): the
accumulator is the list of pushed lines and the `share_address_space` flag.
The line is left-trimmed; a kept line is pushed, and the flag is cleared
when the kept line starts with `_BPX_SHAREAS=`. -/
def stdenv_step (acc : List (List Char) × Bool) (line : List Char) :
    List (List Char) × Bool :=
  let l := ltrim line
  if keep_line l then
    (acc.1 ++ [l], if starts_with l SHAREAS_KEY then false else acc.2)
  else acc

/-- The STDENV while-loop of `make_env` (main.cpp), as a fold of
`stdenv_step` starting from no pushed lines and the flag `true`. -/
def stdenv_fold (lines : List (List Char)) : List (List Char) × Bool :=
  lines.foldl stdenv_step ([], true)

/-- The lines of STDENV that `make_env` retains, already left-trimmed, in
order. `none` models an absent STDENV dataset (the ifstream fails to open,
so the loop body never runs). -/
def retained_lines (stdenv : Option (List (List Char))) : List (List Char) :=
  ((stdenv.getD []).map ltrim).filter keep_line

/-- The final value of the `share_address_space` flag of `make_env`
(main.cpp): starts `true`, cleared by any retained line starting with
`_BPX_SHAREAS=`. -/
def share_address_space (stdenv : Option (List (List Char))) : Bool :=
  (stdenv_fold (stdenv.getD [])).2

/-- The six static defaults of `make_env` (main.cpp). -/
def ENV_DEFAULTS : List (List Char) :=
  ["LIBPATH=/lib:/usr/lib".toList,
   "PATH=/bin:/usr/bin".toList,
   "_BPXK_AUTOCVT=ON".toList,
   "_BPXK_JOBLOG=STDERR".toList,
   "_BPX_SPAWN_SCRIPT=YES".toList,
   "_EDC_ADD_ERRNO2=1".toList]

/-- The entries `make_env` pushes before reading STDENV: the static defaults
followed by HOME and PWD derived from the account home directory (main.cpp). -/
def env_base (home : List Char) : List (List Char) :=
  ENV_DEFAULTS ++ ["HOME=".toList ++ home, "PWD=".toList ++ home]

/-- Model of `make_env` (main.cpp): defaults, HOME/PWD, the retained STDENV
lines in order, then `_BPX_SHAREAS=MUST` unless a retained line overrode the
key. The terminating null sentinel of the C array is not modelled. `home`
is `p->pw_dir`; `stdenv` is `none` when the STDENV dataset is absent. -/
def make_env (home : List Char) (stdenv : Option (List (List Char))) :
    List (List Char) :=
  let base := env_base home
  let r := stdenv_fold (stdenv.getD [])
  base ++ r.1 ++ (if r.2 then [SHAREAS_MUST] else [])

/-! ## Signal bridge, kill_process, exit-status decoding (main.cpp) -/

/-- Observable system actions of the lifecycle and signal code in main.cpp. -/
inductive SysAction where
  | kill (pid : Int) (sig : Nat)
  | waitpidBlocking (pid : Int)
  | waitpidNohangLoop
  | postEcb
  deriving DecidableEq

/-- Body of `kill_process(pid, signal)` (main.cpp): exactly one
`checked_kill(-pid, signal)`. The body contains no waitpid, although the
function comment claims one. -/
def kill_process_actions (pid : Int) (sig : Nat) : List SysAction :=
  [SysAction.kill (-pid) sig]

/-- Body of `handle_sigchld` (main.cpp): it only posts the shutdown ECB via
`post_shutdown_ecb(&shutdown_ecb)`. -/
def handle_sigchld_actions : List SysAction :=
  [SysAction.postEcb]

/-- Model of `setup_signal_handlers` (main.cpp): the handler installed for a
signal number — `handle_sigchld` for SIGCHLD, no handler of interest
otherwise (SIGPIPE is set to SIG_IGN). -/
def installed_handler (sig : Nat) : Option (List SysAction) :=
  if sig = SIGCHLD then some handle_sigchld_actions else none

/-- The epilogue of `run` after the relay loop (main.cpp): one blocking
`checked_waitpid(child_pid, &status, 0)`. -/
def run_epilogue_actions (childPid : Int) : List SysAction :=
  [SysAction.waitpidBlocking childPid]

/-- The return-code computation at the end of `run` (main.cpp):
`return_code` starts at 0, is assigned from WEXITSTATUS only when WIFEXITED
holds, and a value equal to `128 + SIGTERM` is normalized to 0. The WIFEXITED
and WEXITSTATUS decodings of the raw wait status are platform macros and enter
the model as inputs. -/
def decode_return_code (wifexited : Bool) (wexitstatus : Nat) : Nat :=
  if wifexited then
    if wexitstatus = 128 + SIGTERM then 0 else wexitstatus
  else 0

/-! ## The I/O relay loop of run (main.cpp)

One loop iteration: build the interest sets (the stdin pipe write end only
while it is open; both child output read ends always), block in
`checked_selectex` with the shutdown ECB, break when it returns 0, otherwise
service the ready descriptors. The kernel-side outcome of each `selectex`
call is one `SelectEvent` of a finite schedule. -/

/-- Outcome of one `checked_selectex` call: its return value and which
monitored descriptors it reported ready. `outChunk` / `errChunk` are the byte
counts the child stdout / stderr pipes deliver when read. A negative `rc`
models the case `checked_selectex` turns into a throw. -/
structure SelectEvent where
  rc : Int
  stdinWritable : Bool
  stdoutReadable : Bool
  stderrReadable : Bool
  outChunk : Nat
  errChunk : Nat
  deriving DecidableEq

/-- Loop-relevant state of `run`: whether the stdin pipe write end is open
(`pipe_stdin.fd[WRITE] != -1`), the `dataset_stdin` stream, the bytes written
into the child stdin pipe so far, and how many `::close` system calls were
issued on the stdin write slot. -/
structure RelayState where
  stdinWriteOpen : Bool
  dsStdin : FileState
  written : List Nat
  closeWriteCalls : Nat
  deriving DecidableEq

/-- State of `run` when the relay loop is entered: the stdin pipe write end
is open, and `dataset_stdin` was opened with throw-on-error, so it is open
and holds the dataset bytes. -/
def relayInit (content : List Nat) : RelayState :=
  ⟨true, ⟨true, content⟩, [], 0⟩

/-- The dataset and pipe I/O calls one loop iteration performs, in order. -/
inductive RelayAction where
  | dsRead (n : Nat)
  | pipeWrite (bs : List Nat)
  | closeWrite
  | closeDataset
  | dsWriteOut (n : Nat)
  | dsWriteErr (n : Nat)
  deriving DecidableEq

/-- Actions on the stdin-forwarding side of the loop, as opposed to the
child stdout/stderr draining side. -/
def stdinSideAction : RelayAction → Bool
  | RelayAction.dsRead _ => true
  | RelayAction.pipeWrite _ => true
  | RelayAction.closeWrite => true
  | RelayAction.closeDataset => true
  | RelayAction.dsWriteOut _ => false
  | RelayAction.dsWriteErr _ => false

/-- The stdin-forwarding block of one iteration (main.cpp): when the write
end is open and was reported writable, `dataset_stdin.read(buf, 4096)`; a
positive count forwards exactly those bytes into the pipe, a non-positive
count closes the pipe write end (one `::close`, the slot becomes -1) and
closes the dataset. A read on an unopened dataset propagates the thrown
"File not open". -/
def stdinPhase (s : RelayState) (writable : Bool) :
    Except String (RelayState × List RelayAction) :=
  if s.stdinWriteOpen && writable then
    match file_read s.dsStdin BUFSIZE with
    | Except.error msg => Except.error msg
    | Except.ok (chunk, f2) =>
        if 0 < chunk.length then
          Except.ok
            ({ s with dsStdin := f2, written := s.written ++ chunk },
             [RelayAction.dsRead chunk.length, RelayAction.pipeWrite chunk])
        else
          Except.ok
            ({ s with stdinWriteOpen := false,
                      closeWriteCalls := s.closeWriteCalls + 1,
                      dsStdin := file_close s.dsStdin },
             [RelayAction.dsRead 0, RelayAction.closeWrite, RelayAction.closeDataset])
  else Except.ok (s, [])

/-- The stdout/stderr draining blocks of one iteration (main.cpp): each
ready child pipe is read once and the bytes are written to the matching
dataset (or the SYSOUT fallback), including zero-length reads. -/
def outPhase (e : SelectEvent) : List RelayAction :=
  (if e.stdoutReadable then [RelayAction.dsWriteOut e.outChunk] else []) ++
  (if e.stderrReadable then [RelayAction.dsWriteErr e.errChunk] else [])

/-- One full iteration body after `checked_selectex` returned a positive
count (main.cpp): stdin forwarding first, then stdout, then stderr. -/
def relayStep (s : RelayState) (e : SelectEvent) :
    Except String (RelayState × List RelayAction) :=
  match stdinPhase s e.stdinWritable with
  | Except.error msg => Except.error msg
  | Except.ok (s1, a1) => Except.ok (s1, a1 ++ outPhase e)

/-- How a run of the relay loop ended: `stopped` is the normal break on the
signal-only select result, `running` means the finite schedule ended with
the loop still blocked, `fault` is a thrown error unwinding out of `run`. -/
inductive ExitKind where
  | stopped
  | running
  | fault
  deriving DecidableEq

/-- Result of driving the relay loop over a schedule. -/
structure RelayResult where
  final : RelayState
  actions : List RelayAction
  exit : ExitKind
  deriving DecidableEq

/-- The relay loop of `run` (main.cpp) driven by a finite schedule of
`selectex` outcomes: a negative return is the `checked_selectex` throw; a
zero return means only the shutdown ECB fired and the loop breaks
immediately; a positive return runs the iteration body, whose own thrown
error also unwinds. An exhausted schedule leaves the loop `running`. -/
def relayRun (s : RelayState) : List SelectEvent → RelayResult
  | [] => ⟨s, [], ExitKind.running⟩
  | e :: es =>
      if e.rc < 0 then ⟨s, [], ExitKind.fault⟩
      else if e.rc = 0 then ⟨s, [], ExitKind.stopped⟩
      else
        match relayStep s e with
        | Except.error _ => ⟨s, [], ExitKind.fault⟩
        | Except.ok (s1, acts) =>
            let r := relayRun s1 es
            ⟨r.final, acts ++ r.actions, r.exit⟩

/-- Invariant tying the stdin pipe write end to the dataset stream: `run`
opens STDIN with throw-on-error before the loop and the loop closes both in
the same branch, so while the write end is open the dataset is open. -/
def StdinInv (s : RelayState) : Prop :=
  s.stdinWriteOpen = true → s.dsStdin.isOpen = true

instance (s : RelayState) : Decidable (StdinInv s) := by
  unfold StdinInv; infer_instance

/-- A schedule event with a positive select count and only the stdin pipe
writable. -/
def evWrite : SelectEvent := ⟨1, true, false, false, 0, 0⟩

/-- A schedule event with the signal-only select result 0. -/
def evStop : SelectEvent := ⟨0, false, false, false, 0, 0⟩

/-- A schedule event with both child pipes readable. -/
def evOut : SelectEvent := ⟨2, false, true, true, 3, 4⟩

/-- Abbreviation for the state the forwarding branch of `stdinPhase`
produces: the read chunk moved from the dataset into the pipe. -/
def fwdState (s : RelayState) : RelayState :=
  { s with dsStdin := ⟨true, s.dsStdin.content.drop BUFSIZE⟩,
           written := s.written ++ s.dsStdin.content.take BUFSIZE }

/-- Abbreviation for the actions of the forwarding branch of `stdinPhase`. -/
def fwdActs (s : RelayState) : List RelayAction :=
  [RelayAction.dsRead (s.dsStdin.content.take BUFSIZE).length,
   RelayAction.pipeWrite (s.dsStdin.content.take BUFSIZE)]

/-- Abbreviation for the state the end-of-input branch of `stdinPhase`
produces: pipe write end closed (one more `::close`), dataset closed. -/
def closeState (s : RelayState) : RelayState :=
  { s with stdinWriteOpen := false,
           closeWriteCalls := s.closeWriteCalls + 1,
           dsStdin := file_close s.dsStdin }

/-! ## Helper lemmas -/

theorem retry_eintr_ne_eintr (attempts : List SysRes) :
    retry_eintr attempts ≠ some (Except.error EINTR) := by
  induction attempts with
  | nil => simp [retry_eintr]
  | cons a rest ih =>
      cases a with
      | ok n => simp [retry_eintr]
      | err e =>
          by_cases he : e = EINTR
          · simpa [retry_eintr, he] using ih
          · simp [retry_eintr, he]

theorem retry_eintr_replicate (k : Nat) (rest : List SysRes) :
    retry_eintr (List.replicate k (SysRes.err EINTR) ++ rest) =
      retry_eintr rest := by
  induction k with
  | zero => simp
  | succ k ih => simpa [List.replicate_succ, retry_eintr] using ih

theorem pipe_read_never_eintr (ro : Bool) (attempts : List SysRes) :
    pipe_read ro attempts ≠ some (Except.error (PipeErr.io EINTR)) := by
  cases ro with
  | false => simp [pipe_read]
  | true =>
      have h := retry_eintr_ne_eintr attempts
      cases hr : retry_eintr attempts with
      | none => simp [pipe_read, hr]
      | some x =>
          cases x with
          | ok n => simp [pipe_read, hr, Except.mapError]
          | error e =>
              have he : e ≠ EINTR := by
                intro hh
                exact h (by rw [hr, hh])
              simp [pipe_read, hr, Except.mapError, he]

theorem pipe_write_never_eintr (wo : Bool) (attempts : List SysRes) :
    pipe_write wo attempts ≠ some (Except.error (PipeErr.io EINTR)) := by
  cases wo with
  | false => simp [pipe_write]
  | true =>
      have h := retry_eintr_ne_eintr attempts
      cases hr : retry_eintr attempts with
      | none => simp [pipe_write, hr]
      | some x =>
          cases x with
          | ok n => simp [pipe_write, hr, Except.mapError]
          | error e =>
              have he : e ≠ EINTR := by
                intro hh
                exact h (by rw [hr, hh])
              simp [pipe_write, hr, Except.mapError, he]

theorem stdenv_foldl_spec (lines : List (List Char)) :
    ∀ acc : List (List Char) × Bool,
      lines.foldl stdenv_step acc =
        (acc.1 ++ (lines.map ltrim).filter keep_line,
         acc.2 && ((lines.map ltrim).filter keep_line).all
                    (fun l => ! starts_with l SHAREAS_KEY)) := by
  induction lines with
  | nil => intro acc; simp
  | cons x xs ih =>
      intro acc
      rw [List.foldl_cons, ih]
      unfold stdenv_step
      cases hk : keep_line (ltrim x) with
      | false => simp [hk, List.filter_cons]
      | true =>
          cases hs : starts_with (ltrim x) SHAREAS_KEY with
          | false => simp [hk, hs, List.filter_cons]
          | true => simp [hk, hs, List.filter_cons]

theorem stdenv_fold_eq (lines : List (List Char)) :
    stdenv_fold lines =
      ((lines.map ltrim).filter keep_line,
       ((lines.map ltrim).filter keep_line).all
         (fun l => ! starts_with l SHAREAS_KEY)) := by
  unfold stdenv_fold
  rw [stdenv_foldl_spec]
  simp

/-! ## Claim theorems: exit-status decoding, signal bridge, pipe I/O, env -/

/-- C3: a child that exited normally with status 0 yields return code 0, and
a decoded normal-exit code equal to 128 + SIGTERM — which is 143 — is
normalized to 0 instead of being reported. -/
theorem return_code_normalization :
    decode_return_code true 0 = 0 ∧
    decode_return_code true (128 + SIGTERM) = 0 ∧
    128 + SIGTERM = 143 := by
  decide

/-- C10: whenever the normal-exit predicate WIFEXITED is false — a child
killed by any signal, SIGTERM or otherwise — the program return code is 0,
because `return_code` is initialized to 0 and only reassigned under
WIFEXITED. -/
theorem abnormal_termination_rc_zero (wexitstatus : Nat) :
    decode_return_code false wexitstatus = 0 := rfl

/-- C5: the body of `kill_process` delivers the signal to the negated
process id (the whole process group) — shown at the failing input pid 1234
with SIGTERM — and performs no blocking wait at all: no waitpid action
occurs in it for any arguments, contradicting the function's own comment. -/
theorem kill_process_signals_group_without_wait :
    kill_process_actions 1234 SIGTERM = [SysAction.kill (-1234) SIGTERM] ∧
    (∀ (pid q : Int) (sig : Nat),
        SysAction.waitpidBlocking q ∉ kill_process_actions pid sig) ∧
    (∀ (pid : Int) (sig : Nat),
        SysAction.waitpidNohangLoop ∉ kill_process_actions pid sig) := by
  refine ⟨rfl, ?_, ?_⟩
  · intro pid q sig
    simp [kill_process_actions]
  · intro pid sig
    simp [kill_process_actions]

/-- C6 counterexample: the handler `setup_signal_handlers` installs for
SIGCHLD is `handle_sigchld`, whose body is exactly one post of the shutdown
ECB; it contains no zombie-reaping waitpid loop, refuting the claim that the
handler reaps outstanding children before posting. -/
theorem sigchld_handler_has_no_reap :
    installed_handler SIGCHLD = some handle_sigchld_actions ∧
    handle_sigchld_actions = [SysAction.postEcb] ∧
    SysAction.waitpidNohangLoop ∉ handle_sigchld_actions := by
  refine ⟨rfl, rfl, ?_⟩
  simp [handle_sigchld_actions]

/-- C6 amended: on SIGCHLD delivery the installed handler only posts the
shutdown ECB that wakes the relay loop's blocking `selectex`; no reaping
happens in the handler — the child is reaped by the blocking waitpid in the
epilogue of `run` after the loop exits. -/
theorem sigchld_handler_posts_shutdown_only :
    installed_handler SIGCHLD = some [SysAction.postEcb] ∧
    (∀ a ∈ handle_sigchld_actions, a = SysAction.postEcb) ∧
    ∀ pid : Int, run_epilogue_actions pid = [SysAction.waitpidBlocking pid] := by
  refine ⟨rfl, ?_, fun pid => rfl⟩
  intro a ha
  simpa [handle_sigchld_actions] using ha

/-- C9: for every pipe read or write call, an interrupted-call result
(-1 with errno EINTR) is retried transparently — any finite run of EINTR
outcomes is invisible and an EINTR error never surfaces to the caller —
while a -1 with any other errno is propagated as a raised error, and a
successful attempt returns its byte count. -/
theorem pipe_io_eintr_policy :
    (∀ (ro : Bool) (attempts : List SysRes),
        pipe_read ro attempts ≠ some (Except.error (PipeErr.io EINTR))) ∧
    (∀ (wo : Bool) (attempts : List SysRes),
        pipe_write wo attempts ≠ some (Except.error (PipeErr.io EINTR))) ∧
    (∀ (k : Nat) (rest : List SysRes),
        pipe_read true (List.replicate k (SysRes.err EINTR) ++ rest) =
          pipe_read true rest) ∧
    (∀ (k : Nat) (rest : List SysRes),
        pipe_write true (List.replicate k (SysRes.err EINTR) ++ rest) =
          pipe_write true rest) ∧
    (∀ (e : Nat) (rest : List SysRes), e ≠ EINTR →
        pipe_read true (SysRes.err e :: rest) =
          some (Except.error (PipeErr.io e))) ∧
    (∀ (e : Nat) (rest : List SysRes), e ≠ EINTR →
        pipe_write true (SysRes.err e :: rest) =
          some (Except.error (PipeErr.io e))) ∧
    (∀ (n : Nat) (rest : List SysRes),
        pipe_read true (SysRes.ok n :: rest) = some (Except.ok n)) := by
  refine ⟨pipe_read_never_eintr, pipe_write_never_eintr, ?_, ?_, ?_, ?_, ?_⟩
  · intro k rest
    simp [pipe_read, retry_eintr_replicate]
  · intro k rest
    simp [pipe_write, retry_eintr_replicate]
  · intro e rest he
    simp [pipe_read, retry_eintr, he, Except.mapError]
  · intro e rest he
    simp [pipe_write, retry_eintr, he, Except.mapError]
  · intro n rest
    simp [pipe_read, retry_eintr, Except.mapError]

/-- C7: the assembled environment is the defaults, HOME/PWD, the retained
STDENV lines in order, then the forced `_BPX_SHAREAS=MUST` exactly when no
retained override line (non-blank after left-trimming, not a comment)
starts with `_BPX_SHAREAS=`; an explicit override line is itself in the
list and suppresses the forced default; an absent STDENV dataset is handled
without error, yielding the defaults plus the forced entry. -/
theorem make_env_shareas_policy (home : List Char)
    (stdenv : Option (List (List Char))) :
    (share_address_space stdenv = true ↔
        ∀ l ∈ retained_lines stdenv, starts_with l SHAREAS_KEY = false) ∧
    make_env home stdenv =
      env_base home ++ retained_lines stdenv ++
        (if share_address_space stdenv then [SHAREAS_MUST] else []) ∧
    (∀ l ∈ retained_lines stdenv, l ∈ make_env home stdenv) ∧
    make_env home none = env_base home ++ [SHAREAS_MUST] ∧
    (share_address_space stdenv = false →
        make_env home stdenv = env_base home ++ retained_lines stdenv) := by
  have hfold := stdenv_fold_eq (stdenv.getD [])
  have hret : retained_lines stdenv = ((stdenv.getD []).map ltrim).filter keep_line := rfl
  have hshare : share_address_space stdenv =
      (retained_lines stdenv).all (fun l => ! starts_with l SHAREAS_KEY) := by
    rw [share_address_space, hfold, hret]
  refine ⟨?_, ?_, ?_, ?_, ?_⟩
  · rw [hshare]
    simp [List.all_eq_true]
  · rw [make_env, hfold, share_address_space, hfold, hret]
  · intro l hl
    have hmem : make_env home stdenv =
        env_base home ++ retained_lines stdenv ++
          (if share_address_space stdenv then [SHAREAS_MUST] else []) := by
      rw [make_env, hfold, share_address_space, hfold, hret]
    rw [hmem]
    simp [hl]
  · rw [make_env]
    simp [stdenv_fold, stdenv_step]
  · intro hfalse
    rw [make_env, hfold, hret]
    have : share_address_space stdenv =
        (((stdenv.getD []).map ltrim).filter keep_line).all
          (fun l => ! starts_with l SHAREAS_KEY) := by
      rw [share_address_space, hfold]
    rw [this] at hfalse
    simp [hfalse]

/-! ## Relay-loop step characterization -/

theorem outPhase_no_stdin (e : SelectEvent) :
    (outPhase e).filter stdinSideAction = [] := by
  unfold outPhase
  cases e.stdoutReadable <;> cases e.stderrReadable <;>
    simp [stdinSideAction]

theorem closeWrite_not_mem_outPhase (e : SelectEvent) :
    RelayAction.closeWrite ∉ outPhase e := by
  unfold outPhase
  cases e.stdoutReadable <;> cases e.stderrReadable <;> simp

theorem relayStep_closed (t : RelayState) (e : SelectEvent)
    (ht : t.stdinWriteOpen = false) :
    relayStep t e = Except.ok (t, outPhase e) := by
  simp [relayStep, stdinPhase, ht]

theorem relayStep_char (s : RelayState) (e : SelectEvent) :
    (relayStep s e = Except.error "File not open" ∧
       s.stdinWriteOpen = true ∧ e.stdinWritable = true ∧
       s.dsStdin.isOpen = false) ∨
    ((s.stdinWriteOpen && e.stdinWritable) = false ∧
       relayStep s e = Except.ok (s, outPhase e)) ∨
    (s.stdinWriteOpen = true ∧ e.stdinWritable = true ∧
       s.dsStdin.isOpen = true ∧ s.dsStdin.content ≠ [] ∧
       relayStep s e = Except.ok (fwdState s, fwdActs s ++ outPhase e)) ∨
    (s.stdinWriteOpen = true ∧ e.stdinWritable = true ∧
       s.dsStdin.isOpen = true ∧ s.dsStdin.content = [] ∧
       relayStep s e =
         Except.ok (closeState s,
           [RelayAction.dsRead 0, RelayAction.closeWrite,
            RelayAction.closeDataset] ++ outPhase e)) := by
  cases hw : s.stdinWriteOpen with
  | false =>
      right; left
      exact ⟨by simp [hw], relayStep_closed s e hw⟩
  | true =>
      cases hwr : e.stdinWritable with
      | false =>
          right; left
          refine ⟨by simp [hw, hwr], ?_⟩
          simp [relayStep, stdinPhase, hw, hwr]
      | true =>
          cases hds : s.dsStdin.isOpen with
          | false =>
              left
              refine ⟨?_, rfl, rfl, rfl⟩
              simp [relayStep, stdinPhase, file_read, hw, hwr, hds]
          | true =>
              cases hc : s.dsStdin.content with
              | nil =>
                  right; right; right
                  refine ⟨rfl, rfl, rfl, rfl, ?_⟩
                  simp [relayStep, stdinPhase, file_read, hw, hwr, hds, hc,
                        closeState, file_close]
              | cons b bs =>
                  right; right; left
                  refine ⟨rfl, rfl, rfl, by simp, ?_⟩
                  simp [relayStep, stdinPhase, file_read, hw, hwr, hds, hc,
                        fwdState, fwdActs, BUFSIZE]

theorem relayStep_ok_of_inv (s : RelayState) (e : SelectEvent)
    (h : StdinInv s) :
    ∃ s1 acts, relayStep s e = Except.ok (s1, acts) ∧ StdinInv s1 := by
  rcases relayStep_char s e with
      ⟨_, hw, _, hds⟩ | ⟨_, hstep⟩ |
      ⟨_, _, hds, _, hstep⟩ | ⟨_, _, _, _, hstep⟩
  · rw [h hw] at hds
    cases hds
  · exact ⟨s, _, hstep, h⟩
  · refine ⟨_, _, hstep, ?_⟩
    intro _
    rfl
  · refine ⟨_, _, hstep, ?_⟩
    intro hww
    simp [closeState] at hww

theorem relayRun_no_zero_no_stop (es : List SelectEvent) :
    ∀ t : RelayState, (∀ x ∈ es, x.rc ≠ 0) →
      (relayRun t es).exit ≠ ExitKind.stopped := by
  induction es with
  | nil =>
      intro t _
      simp [relayRun]
  | cons e es ih =>
      intro t h
      have he : e.rc ≠ 0 := h e (List.mem_cons_self e es)
      by_cases hneg : e.rc < 0
      · simp [relayRun, hneg]
      · cases hstep : relayStep t e with
        | error msg => simp [relayRun, hneg, he, hstep]
        | ok p =>
            simpa [relayRun, hneg, he, hstep] using
              ih p.1 (fun x hx => h x (List.mem_cons_of_mem e hx))

theorem relayRun_all_pos_stop (es₁ : List SelectEvent) :
    ∀ s : RelayState, StdinInv s → (∀ x ∈ es₁, 0 < x.rc) →
      ∀ (e : SelectEvent), e.rc = 0 → ∀ es₂ : List SelectEvent,
      relayRun s (es₁ ++ e :: es₂) =
        ⟨(relayRun s es₁).final, (relayRun s es₁).actions,
         ExitKind.stopped⟩ := by
  induction es₁ with
  | nil =>
      intro s _ _ e h0 es₂
      simp [relayRun, h0]
  | cons x xs ih =>
      intro s hinv hpos e h0 es₂
      have hx : (0:Int) < x.rc := hpos x (List.mem_cons_self x xs)
      have hneg : ¬ x.rc < 0 := by omega
      have hne : ¬ x.rc = 0 := by omega
      obtain ⟨s1, acts, hstep, hinv1⟩ := relayStep_ok_of_inv s x hinv
      have hxs : ∀ y ∈ xs, (0:Int) < y.rc :=
        fun y hy => hpos y (List.mem_cons_of_mem x hy)
      have hrec : relayRun s1 (xs.append (e :: es₂)) =
          ⟨(relayRun s1 xs).final, (relayRun s1 xs).actions,
           ExitKind.stopped⟩ := ih s1 hinv1 hxs e h0 es₂
      simp only [List.cons_append, relayRun, if_neg hneg, if_neg hne, hstep,
                 hrec]

theorem relayRun_bytes (es : List SelectEvent) :
    ∀ s : RelayState,
      (relayRun s es).final.written ++
          (relayRun s es).final.dsStdin.content =
        s.written ++ s.dsStdin.content := by
  induction es with
  | nil =>
      intro s
      simp [relayRun]
  | cons e es ih =>
      intro s
      by_cases hneg : e.rc < 0
      · simp [relayRun, hneg]
      · by_cases h0 : e.rc = 0
        · simp [relayRun, hneg, h0]
        · rcases relayStep_char s e with
              ⟨herr, _, _, _⟩ | ⟨_, hstep⟩ |
              ⟨_, _, _, _, hstep⟩ | ⟨_, _, _, hc, hstep⟩
          · simp [relayRun, hneg, h0, herr]
          · simp [relayRun, hneg, h0, hstep, ih]
          · have := ih (fwdState s)
            simp only [relayRun, if_neg hneg, if_neg h0, hstep] at *
            rw [this]
            simp [fwdState]
          · have := ih (closeState s)
            simp only [relayRun, if_neg hneg, if_neg h0, hstep] at *
            rw [this]
            simp [closeState, file_close]

theorem relayRun_closed_no_stdin (es : List SelectEvent) :
    ∀ t : RelayState, t.stdinWriteOpen = false →
      (relayRun t es).final.stdinWriteOpen = false ∧
      (relayRun t es).actions.filter stdinSideAction = [] := by
  induction es with
  | nil =>
      intro t ht
      simp [relayRun, ht]
  | cons e es ih =>
      intro t ht
      by_cases hneg : e.rc < 0
      · simp [relayRun, hneg, ht]
      · by_cases h0 : e.rc = 0
        · simp [relayRun, hneg, h0, ht]
        · have hstep := relayStep_closed t e ht
          obtain ⟨ih1, ih2⟩ := ih t ht
          constructor
          · simpa [relayRun, hneg, h0, hstep] using ih1
          · simp [relayRun, hneg, h0, hstep, List.filter_append,
                  outPhase_no_stdin, ih2]

theorem outPhase_count_closeWrite (e : SelectEvent) :
    (outPhase e).count RelayAction.closeWrite = 0 := by
  rw [List.count_eq_zero]
  exact closeWrite_not_mem_outPhase e

theorem relayRun_closeWrite_count (es : List SelectEvent) :
    ∀ s : RelayState,
      (relayRun s es).actions.count RelayAction.closeWrite ≤ 1 ∧
      (s.stdinWriteOpen = false →
        (relayRun s es).actions.count RelayAction.closeWrite = 0) := by
  induction es with
  | nil =>
      intro s
      simp [relayRun]
  | cons e es ih =>
      intro s
      by_cases hneg : e.rc < 0
      · simp [relayRun, hneg]
      · by_cases h0 : e.rc = 0
        · simp [relayRun, hneg, h0]
        · rcases relayStep_char s e with
              ⟨herr, _, _, _⟩ | ⟨hg, hstep⟩ |
              ⟨hw, _, _, _, hstep⟩ | ⟨hw, _, _, _, hstep⟩
          · simp [relayRun, hneg, h0, herr]
          · constructor
            · simpa [relayRun, hneg, h0, hstep, List.count_append,
                     outPhase_count_closeWrite] using (ih s).1
            · intro hc
              simpa [relayRun, hneg, h0, hstep, List.count_append,
                     outPhase_count_closeWrite] using (ih s).2 hc
          · have hopen : (fwdState s).stdinWriteOpen = s.stdinWriteOpen := rfl
            constructor
            · simpa [relayRun, hneg, h0, hstep, List.count_append, fwdActs,
                     outPhase_count_closeWrite] using (ih (fwdState s)).1
            · intro hc
              rw [hw] at hc
              cases hc
          · have hclosed : (closeState s).stdinWriteOpen = false := rfl
            have hrest := (ih (closeState s)).2 hclosed
            constructor
            · simp [relayRun, hneg, h0, hstep, List.count_append,
                    outPhase_count_closeWrite, List.count_cons, hrest]
            · intro hc
              rw [hw] at hc
              cases hc

theorem relayRun_closeWriteCalls (es : List SelectEvent) :
    ∀ s : RelayState,
      (relayRun s es).final.closeWriteCalls =
        s.closeWriteCalls +
          (relayRun s es).actions.count RelayAction.closeWrite := by
  induction es with
  | nil =>
      intro s
      simp [relayRun]
  | cons e es ih =>
      intro s
      by_cases hneg : e.rc < 0
      · simp [relayRun, hneg]
      · by_cases h0 : e.rc = 0
        · simp [relayRun, hneg, h0]
        · rcases relayStep_char s e with
              ⟨herr, _, _, _⟩ | ⟨hg, hstep⟩ |
              ⟨_, _, _, _, hstep⟩ | ⟨_, _, _, _, hstep⟩
          · simp [relayRun, hneg, h0, herr]
          · simp [relayRun, hneg, h0, hstep, List.count_append,
                  outPhase_count_closeWrite, ih]
          · have hcalls : (fwdState s).closeWriteCalls = s.closeWriteCalls :=
              rfl
            simp [relayRun, hneg, h0, hstep, List.count_append, fwdActs,
                  outPhase_count_closeWrite, ih, hcalls]
          · have hcalls : (closeState s).closeWriteCalls =
                s.closeWriteCalls + 1 := rfl
            simp [relayRun, hneg, h0, hstep, List.count_append,
                  outPhase_count_closeWrite, List.count_cons, ih, hcalls]
            omega

/-! ## Claim theorems: the relay loop -/

/-- C1: the relay loop leaves RUNNING for STOPPED exactly on the signal-only
selectex result 0: a schedule whose wait results are positive up to a 0
stops there, and every action of the run — every dataset read or write —
comes from before the signal-only return (the action trace of the full run
equals the trace of the prefix before the 0); conversely a schedule with no
0 result never reaches STOPPED, so descriptor readiness alone never exits
the loop. -/
theorem relay_stops_iff_signal_only (s : RelayState)
    (es₁ es₂ : List SelectEvent) (e : SelectEvent)
    (hinv : StdinInv s) (h0 : e.rc = 0) (hpos : ∀ x ∈ es₁, 0 < x.rc) :
    (relayRun s (es₁ ++ e :: es₂)).exit = ExitKind.stopped ∧
    (relayRun s (es₁ ++ e :: es₂)).actions = (relayRun s es₁).actions ∧
    ∀ (t : RelayState) (es : List SelectEvent),
      (∀ x ∈ es, x.rc ≠ 0) → (relayRun t es).exit ≠ ExitKind.stopped := by
  have hmain := relayRun_all_pos_stop es₁ s hinv hpos e h0 es₂
  exact ⟨by rw [hmain], by rw [hmain],
         fun t es => relayRun_no_zero_no_stop es t⟩

/-- Witness for C1 at a concrete schedule: content [1, 2], one productive
iteration, then the signal-only wake, then one more (ignored) event. -/
theorem relay_stops_iff_signal_only_witness :
    (StdinInv (relayInit [1, 2]) ∧ evStop.rc = 0 ∧
       (∀ x ∈ [evWrite], (0:Int) < x.rc)) ∧
    ((relayRun (relayInit [1, 2]) ([evWrite] ++ evStop :: [evOut])).exit =
        ExitKind.stopped ∧
     (relayRun (relayInit [1, 2]) ([evWrite] ++ evStop :: [evOut])).actions =
        (relayRun (relayInit [1, 2]) [evWrite]).actions ∧
     ∀ (t : RelayState) (es : List SelectEvent),
       (∀ x ∈ es, x.rc ≠ 0) → (relayRun t es).exit ≠ ExitKind.stopped) :=
  ⟨⟨by decide, by decide, by decide⟩,
   relay_stops_iff_signal_only (relayInit [1, 2]) [evWrite] [evOut] evStop
     (by decide) (by decide) (by decide)⟩

/-- C2: over any schedule of the relay loop, the bytes written into the
child stdin pipe are exactly the bytes consumed from the input dataset:
what has been written concatenated with what the dataset still holds is the
original content, so the written stream is, byte for byte and in order, the
prefix of the dataset of its own length, independent of how the schedule
splits the data into at-most-4096-byte chunks. -/
theorem stdin_forwarding_exact (content : List Nat)
    (es : List SelectEvent) :
    (relayRun (relayInit content) es).final.written ++
        (relayRun (relayInit content) es).final.dsStdin.content = content ∧
    (relayRun (relayInit content) es).final.written =
      content.take
        (relayRun (relayInit content) es).final.written.length := by
  have h := relayRun_bytes es (relayInit content)
  simp only [relayInit] at h
  rw [List.nil_append] at h
  have h2 : ∀ W R : List Nat, W ++ R = content →
      W = content.take W.length := by
    intro W R hWR
    rw [← hWR, List.take_left]
  exact ⟨h, h2 _ _ h⟩

/-- C8: over any schedule from the loop-entry state, the action trace holds
at most one close of the stdin pipe write end, and when one occurs it is
the only one; the count of `::close` system calls on the write slot is
likewise at most one; once the write end is closed, every later iteration
drops the stdin write interest — no stdin-side action (dataset read, pipe
write, or close) occurs again and the end stays closed; and at the
descriptor level `rkt::pipe::close` on an already-closed slot issues no
`::close` system call. -/
theorem stdin_close_write_once (content : List Nat)
    (es : List SelectEvent) :
    (relayRun (relayInit content) es).actions.count
        RelayAction.closeWrite ≤ 1 ∧
    (RelayAction.closeWrite ∈ (relayRun (relayInit content) es).actions →
       (relayRun (relayInit content) es).actions.count
           RelayAction.closeWrite = 1) ∧
    (relayRun (relayInit content) es).final.closeWriteCalls ≤ 1 ∧
    (∀ (t : RelayState) (es₂ : List SelectEvent),
        t.stdinWriteOpen = false →
        (relayRun t es₂).final.stdinWriteOpen = false ∧
        (relayRun t es₂).actions.filter stdinSideAction = []) ∧
    (∀ fd : Int, pipe_close_slot ((pipe_close_slot fd).1) = (-1, 0)) := by
  have hcount := (relayRun_closeWrite_count es (relayInit content)).1
  have hcalls := relayRun_closeWriteCalls es (relayInit content)
  refine ⟨hcount, ?_, ?_,
          fun t es₂ ht => relayRun_closed_no_stdin es₂ t ht, ?_⟩
  · intro hmem
    have hpos := List.count_pos_iff.mpr hmem
    omega
  · rw [hcalls]
    simp [relayInit]
    exact hcount
  · intro fd
    by_cases hfd : fd = -1 <;> simp [pipe_close_slot, hfd]

/-- C4 counterexample: with the STDIN dataset absent the claim fails at the
concrete input "STDIN missing": the open at the start of `run` (throw-on-
error constructor) raises instead of proceeding, `rkt::file::read` on a
never-open stream raises "File not open" instead of returning end-of-
stream, and a relay iteration facing a never-open dataset with the write
end open raises rather than dropping the stdin write interest. -/
theorem stdin_absent_faults_cex :
    open_dataset_stdin false [] = Except.error "Error opening file" ∧
    file_read ⟨false, []⟩ BUFSIZE = Except.error "File not open" ∧
    relayStep ⟨true, ⟨false, []⟩, [], 0⟩ evWrite =
      Except.error "File not open" := by
  refine ⟨rfl, rfl, ?_⟩
  simp [relayStep, stdinPhase, file_read, evWrite]

/-- C4 amended: absence of the input dataset is an error, not a silent
end-of-stream: opening STDIN while absent throws (so `run` aborts through
the top-level handler before the relay loop), and a relay iteration whose
dataset was never open throws "File not open" from the dataset read instead
of closing the write end as on end-of-input. -/
theorem stdin_absent_raises (present : Bool) (content : List Nat) (n : Nat)
    (s : RelayState) (e : SelectEvent)
    (hp : present = false) (hds : s.dsStdin.isOpen = false)
    (hw : s.stdinWriteOpen = true) (hwr : e.stdinWritable = true) :
    open_dataset_stdin present content = Except.error "Error opening file" ∧
    file_read s.dsStdin n = Except.error "File not open" ∧
    relayStep s e = Except.error "File not open" := by
  subst hp
  refine ⟨rfl, ?_, ?_⟩
  · simp [file_read, hds]
  · simp [relayStep, stdinPhase, file_read, hds, hw, hwr]

/-- Witness for the amended C4 at the concrete state with STDIN absent. -/
theorem stdin_absent_raises_witness :
    ((false : Bool) = false ∧
       (FileState.mk false []).isOpen = false ∧
       (RelayState.mk true ⟨false, []⟩ [] 0).stdinWriteOpen = true ∧
       evWrite.stdinWritable = true) ∧
    (open_dataset_stdin false [] = Except.error "Error opening file" ∧
     file_read (RelayState.mk true ⟨false, []⟩ [] 0).dsStdin BUFSIZE =
       Except.error "File not open" ∧
     relayStep (RelayState.mk true ⟨false, []⟩ [] 0) evWrite =
       Except.error "File not open") :=
  ⟨⟨rfl, rfl, rfl, rfl⟩,
   stdin_absent_raises false [] BUFSIZE
     (RelayState.mk true ⟨false, []⟩ [] 0) evWrite rfl rfl rfl rfl⟩
